import Mathlib

set_option linter.unusedVariables false

namespace SyncApi

/-- Lifecycle state of a once backend: the State enum shared by
examples/spin.rs, examples/critical_section.rs and examples/parking_lot.rs
(Incomplete, Running, Complete, Poisoned). -/
inductive State
  | incomplete
  | running
  | complete
  | poisoned
deriving DecidableEq

/-- OnceState from src/src/once.rs: the transient poison flag handed to the
initializer on its one invocation. -/
structure OnceState where
  is_poisoned : Bool
deriving DecidableEq

/-- OnceState::new from src/src/once.rs: the flag starts false. -/
def OnceState.new : OnceState := ⟨false⟩

/-- OnceState::poisoned, the constructor used by the example backends to hand a
set flag to the initializer. -/
def OnceState.poisoned : OnceState := ⟨true⟩

/-- OnceState::poison from src/src/once.rs: sets the flag. -/
def OnceState.poison (s : OnceState) : OnceState := ⟨true⟩

/-- RawSpinOnce::is_completed from examples/spin.rs: true exactly on Complete. -/
def State.is_completed (s : State) : Bool := s = State.complete

/-- Sequential meaning of RawSpinOnce::try_acquire, examples/spin.rs lines
47 to 69. The result none means the call blocks forever (with a single caller
the Running state never changes, so wait_while_running spins without end);
some (none, s) models the return of None on Complete; some (some os, running)
models a successful compare exchange claiming the episode, together with the
OnceState that will be handed to the initializer: a fresh one from Incomplete,
a poisoned one from Poisoned. -/
def tryAcquire : State → Option (Option OnceState × State)
  | State.running => none
  | State.complete => some (none, State.complete)
  | State.incomplete => some (some OnceState.new, State.running)
  | State.poisoned => some (some OnceState.poisoned, State.running)

/-- Sequential meaning of RawSpinOnce::call, examples/spin.rs lines 92 to 107,
for a closure that either succeeds or returns an error. On success the guard is
forgotten and the state stored Complete (finish_init); on error the question
mark operator drops the guard, whose Drop stores Poisoned, and the error goes
back to the caller that ran the closure. -/
def spinCall (ε : Type) (s : State) (f : OnceState → Except ε Unit) :
    Option (State × Except ε Unit) :=
  match tryAcquire s with
  | none => none
  | some (none, s1) => some (s1, Except.ok ())
  | some (some os, _) =>
    match f os with
    | Except.ok _ => some (State.complete, Except.ok ())
    | Except.error e => some (State.poisoned, Except.error e)

/-- OnceLock from src/src/once_lock.rs over the spin backend: the backend state
plus the optional value slot. -/
structure OnceLockM (α : Type) where
  once : State
  value : Option α
deriving DecidableEq

/-- OnceLock::new, src/src/once_lock.rs lines 15 to 20: the INCOMPLETE backend
constant and an empty slot. -/
def OnceLockM.new (α : Type) : OnceLockM α := ⟨State.incomplete, none⟩

/-- OnceLock::with_value, src/src/once_lock.rs lines 22 to 27: the COMPLETE
backend constant and a filled slot. -/
def OnceLockM.with_value (v : α) : OnceLockM α := ⟨State.complete, some v⟩

/-- OnceLock::get, src/src/once_lock.rs lines 29 to 35: Some exactly when the
backend reports completed. When the backend reports completed while the slot is
empty the source calls unwrap_unchecked on None, which is undefined behaviour;
the model returns none there. -/
def OnceLockM.get (l : OnceLockM α) : Option α :=
  if l.once.is_completed then l.value else none

/-- OnceLock::get_or_try_init over the spin backend, src/src/once_lock.rs lines
91 to 107: fast-path get, else the backend call runs the initializer,
publishes the value into the slot from inside the episode, and the stored value
is returned. Returns none when the call would block, or on the undefined
unwrap_unchecked of an inconsistent lock. -/
def OnceLockM.get_or_try_init (ε : Type) (l : OnceLockM α) (f : Unit → Except ε α) :
    Option (OnceLockM α × Except ε α) :=
  match l.get with
  | some v => some (l, Except.ok v)
  | none =>
    match tryAcquire l.once with
    | none => none
    | some (none, s1) =>
      match l.value with
      | some v => some ({ l with once := s1 }, Except.ok v)
      | none => none
    | some (some os, _) =>
      match f () with
      | Except.error e => some (⟨State.poisoned, l.value⟩, Except.error e)
      | Except.ok v => some (⟨State.complete, some v⟩, Except.ok v)

/-- OnceLock::set, src/src/once_lock.rs lines 55 to 72: if get is Some the value
is handed back as Err before anything runs; otherwise the backend call installs
the value through the closure and the local Option tells whether the closure
consumed it. Returns none when the call would block. -/
def OnceLockM.set (l : OnceLockM α) (v : α) : Option (OnceLockM α × Except α Unit) :=
  if (l.get).isSome then some (l, Except.error v)
  else
    match tryAcquire l.once with
    | none => none
    | some (none, s1) => some ({ l with once := s1 }, Except.error v)
    | some (some _, _) => some (⟨State.complete, some v⟩, Except.ok ())

/-- Result of a computation that may panic. -/
inductive PanicOr (α : Type)
  | panicked (msg : String)
  | ok (a : α)
deriving DecidableEq

/-- Sequential meaning of the monomorphic RawOnce::call of src/src/once.rs over
the four-state spin machine, for a callback following the bool protocol of the
trait: true marks the once Complete, false marks it Poisoned, and an unwind of
the callback drops the guard, which also stores Poisoned. The value acc models
the variables captured by the callback closure; the callback returns its
updated capture state. -/
def rawSpinCall (σ : Type) (s : State) (g : OnceState → PanicOr Bool × σ) (acc : σ) :
    Option (State × PanicOr Unit × σ) :=
  match tryAcquire s with
  | none => none
  | some (none, s1) => some (s1, PanicOr.ok (), acc)
  | some (some os, _) =>
    match g os with
    | (PanicOr.panicked m, a) => some (State.poisoned, PanicOr.panicked m, a)
    | (PanicOr.ok true, a) => some (State.complete, PanicOr.ok (), a)
    | (PanicOr.ok false, a) => some (State.poisoned, PanicOr.ok (), a)

/-- Once::call_once_force, src/src/once.rs lines 53 to 67, parametrized over the
behaviour of the wrapped user closure. The recorded list collects, per user
closure invocation, the OnceState it received. The fast path returns when the
once is already completed. -/
def callOnceForceWith (s : State) (f : OnceState → PanicOr Unit × List OnceState) :
    Option (State × PanicOr Unit × List OnceState) :=
  if s.is_completed then some (s, PanicOr.ok (), [])
  else
    rawSpinCall (List OnceState) s
      (fun st =>
        match f st with
        | (PanicOr.ok _, us) => (PanicOr.ok true, us)
        | (PanicOr.panicked m, us) => (PanicOr.panicked m, us)) []

/-- Once::call_once_force with a user closure that returns normally: the closure
body runs and records the OnceState it was handed. -/
def callOnceForce (s : State) : Option (State × PanicOr Unit × List OnceState) :=
  callOnceForceWith s (fun st => (PanicOr.ok (), [st]))

/-- Once::call_once, src/src/once.rs lines 41 to 51: defined through
call_once_force with a closure that panics on a poisoned OnceState before the
user closure gets to run, so a panic leaves an empty invocation list. -/
def callOnce (s : State) : Option (State × PanicOr Unit × List OnceState) :=
  callOnceForceWith s
    (fun st =>
      if st.is_poisoned then (PanicOr.panicked "Once poisoned", [])
      else (PanicOr.ok (), [st]))

/-- Once::try_call_once_force, src/src/once.rs lines 81 to 108, parametrized
over the wrapped user closure. The capture state of the callback is the
invocation list together with the captured error, mirroring the err local. -/
def tryCallOnceForceWith (ε : Type) (s : State)
    (f : OnceState → PanicOr (Except ε Unit) × List OnceState) :
    Option (State × PanicOr (Except ε Unit) × List OnceState) :=
  if s.is_completed then some (s, PanicOr.ok (Except.ok ()), [])
  else
    match rawSpinCall (List OnceState × Option ε) s
      (fun st =>
        match f st with
        | (PanicOr.panicked m, us) => (PanicOr.panicked m, (us, none))
        | (PanicOr.ok (Except.ok _), us) => (PanicOr.ok true, (us, none))
        | (PanicOr.ok (Except.error e), us) => (PanicOr.ok false, (us, some e)))
      ([], none) with
    | none => none
    | some (s1, PanicOr.panicked m, (us, _)) => some (s1, PanicOr.panicked m, us)
    | some (s1, PanicOr.ok _, (us, some e)) =>
      some (s1, PanicOr.ok (Except.error e), us)
    | some (s1, PanicOr.ok _, (us, none)) =>
      some (s1, PanicOr.ok (Except.ok ()), us)

/-- Once::try_call_once, src/src/once.rs lines 69 to 79: defined through
try_call_once_force with a closure that panics on a poisoned OnceState before
the user closure gets to run. -/
def tryCallOnce (ε : Type) (s : State) (f : OnceState → Except ε Unit) :
    Option (State × PanicOr (Except ε Unit) × List OnceState) :=
  tryCallOnceForceWith ε s
    (fun st =>
      if st.is_poisoned then (PanicOr.panicked "Once poisoned", [])
      else (PanicOr.ok (f st), [st]))

/-- State enum of src/src/raw_spin.rs: Empty, Busy, Init, Poison, where Init
names the completed state. -/
inductive SpinState
  | empty
  | busy
  | init
  | poison
deriving DecidableEq

/-- Sequential meaning of RawSpinOnce::call from src/src/raw_spin.rs lines 37 to
82, transliterated as written: after the compare exchange wins the episode, the
code at lines 69 and 70 builds OnceState::new and then unconditionally calls
poison on it, whatever state the call started from, and hands that to the
closure. The list records the closure invocations with their OnceState. -/
def rawSpinCrateCall (s : SpinState) (f : OnceState → Bool) :
    Option (SpinState × List OnceState) :=
  match s with
  | SpinState.busy => none
  | SpinState.init => some (SpinState.init, [])
  | SpinState.empty =>
    let os := OnceState.new.poison
    if f os then some (SpinState.init, [os]) else some (SpinState.poison, [os])
  | SpinState.poison =>
    let os := OnceState.new.poison
    if f os then some (SpinState.init, [os]) else some (SpinState.poison, [os])

/-- Sequential meaning of RawCsOnce::call, examples/critical_section.rs lines 50
to 77, run inside the critical section. Observing Running there means the call
re-entered the instance from within its own exclusive episode, and the code
panics with the message written at line 60. The function is total: no branch
blocks. -/
def csCall (ε : Type) (s : State) (f : OnceState → Except ε Unit) :
    PanicOr (State × Except ε Unit) :=
  match s with
  | State.running => PanicOr.panicked "reentrant once call"
  | State.complete => PanicOr.ok (State.complete, Except.ok ())
  | State.poisoned =>
    match f OnceState.poisoned with
    | Except.ok _ => PanicOr.ok (State.complete, Except.ok ())
    | Except.error e => PanicOr.ok (State.poisoned, Except.error e)
  | State.incomplete =>
    match f OnceState.new with
    | Except.ok _ => PanicOr.ok (State.complete, Except.ok ())
    | Except.error e => PanicOr.ok (State.poisoned, Except.error e)

/-- State encoding constants of examples/std.rs lines 80 to 86: the two low bits
of the queue word. -/
def INCOMPLETE : Nat := 0

/-- Running tag of examples/std.rs line 81. -/
def RUNNING : Nat := 1

/-- Complete tag of examples/std.rs line 82. -/
def COMPLETE : Nat := 2

/-- Poisoned tag of examples/std.rs line 83. -/
def POISONED : Nat := 3

/-- STATE_MASK of examples/std.rs line 90. -/
def STATE_MASK : Nat := 3

/-- INCOMPLETE_PTR of examples/std.rs line 84, as the address of the pointer. -/
def INCOMPLETE_PTR : Nat := INCOMPLETE

/-- COMPLETE_PTR of examples/std.rs line 85. -/
def COMPLETE_PTR : Nat := COMPLETE

/-- RawStdOnce from examples/std.rs: the whole backend state is one
pointer-sized word, modelled through its address. -/
structure RawStdOnce where
  queue : Nat
deriving DecidableEq

/-- Associated constant COMPLETE of RawStdOnce, exactly as written at
examples/std.rs lines 38 to 41: it stores INCOMPLETE_PTR. -/
def RawStdOnce.COMPLETE : RawStdOnce := ⟨INCOMPLETE_PTR⟩

/-- Associated constant INCOMPLETE of RawStdOnce, exactly as written at
examples/std.rs lines 42 to 45: it stores COMPLETE_PTR. -/
def RawStdOnce.INCOMPLETE : RawStdOnce := ⟨COMPLETE_PTR⟩

/-- RawStdOnce::is_completed, examples/std.rs lines 47 to 50: the queue word
equals COMPLETE_PTR. -/
def RawStdOnce.is_completed (r : RawStdOnce) : Bool := r.queue = COMPLETE_PTR

/-- OnceLock instantiated with the RawStdOnce backend of examples/std.rs. -/
structure StdOnceLockM (α : Type) where
  once : RawStdOnce
  value : Option α
deriving DecidableEq

/-- OnceLock::new over RawStdOnce: uses the INCOMPLETE associated constant. -/
def StdOnceLockM.new (α : Type) : StdOnceLockM α := ⟨RawStdOnce.INCOMPLETE, none⟩

/-- OnceLock::with_value over RawStdOnce: uses the COMPLETE associated
constant. -/
def StdOnceLockM.with_value (v : α) : StdOnceLockM α := ⟨RawStdOnce.COMPLETE, some v⟩

/-- OnceLock::get over RawStdOnce. When the backend reports completed while the
slot is empty the source hits unwrap_unchecked on None, which is undefined
behaviour; the model returns none there. -/
def StdOnceLockM.get (l : StdOnceLockM α) : Option α :=
  if l.once.is_completed then l.value else none

/-- Width of usize on the modelled 64 bit target. -/
def USIZE_BITS : Nat := 64

/-- The bitwise complement of STATE_MASK inside a usize word, as used by the
expression q and not STATE_MASK in examples/std.rs lines 115 and 144: written
as xor against the all-ones word. -/
def NOT_STATE_MASK : Nat := (2 ^ USIZE_BITS - 1) ^^^ STATE_MASK

/-- Combination of a node address with the state tag, as in wait at
examples/std.rs line 188: map_addr of the node pointer with q or tag. -/
def combineTag (a t : Nat) : Nat := a ||| t

/-- Stripping the tag bits, as in Guard drop at examples/std.rs line 115 and in
wait at line 182: map_addr with q and not STATE_MASK. -/
def stripTag (w : Nat) : Nat := w &&& NOT_STATE_MASK

/-- Reading the tag, as at examples/std.rs lines 111 and 138: addr of the word
and STATE_MASK. -/
def tagOf (w : Nat) : Nat := w &&& STATE_MASK

/-- Result of Option::take on the slot holding the user closure: either the
taken closure, or the None branch that unwrap_unchecked declares unreachable. -/
inductive TakeResult (φ : Type)
  | took (f : φ)
  | noneLeft
deriving DecidableEq

/-- Option::take: returns the contents and leaves None behind. -/
def optionTake (st : Option φ) : TakeResult φ × Option φ :=
  match st with
  | some f => (TakeResult.took f, none)
  | none => (TakeResult.noneLeft, none)

/-- Runs the callback body of Once::call_once_force and try_call_once_force,
src/src/once.rs lines 61 to 66 and 92 to 102, k times against the Option slot
holding the user closure, k being the number of times the backend invokes the
callback during one wrapper call. Each run takes from the slot. The Bool
records whether every take found Some, the soundness condition of the
unwrap_unchecked, and the Nat counts the user closure runs. -/
def runCallbackTimes (k : Nat) (st : Option φ) : Option φ × Nat × Bool :=
  match k with
  | 0 => (st, 0, true)
  | Nat.succ k1 =>
    match optionTake st with
    | (TakeResult.took _, st1) =>
      let r := runCallbackTimes k1 st1
      (r.1, r.2.1 + 1, r.2.2)
    | (TakeResult.noneLeft, st1) =>
      let r := runCallbackTimes k1 st1
      (r.1, r.2.1, false)

/-- Program counter of one thread running OnceLock::get_or_init over the spin
backend, at the granularity of its atomic accesses to the shared state word:
the fast-path completion check of get, the load at the top of the try_acquire
loop, the compare exchange claiming the episode, the initializer run publishing
into the slot, the release store of Complete, and the final slot read. -/
inductive PC (α : Type)
  | start
  | acquireLoop
  | casReady (obs : State)
  | runF
  | finishStore
  | readSlot
  | done (ret : α)
deriving DecidableEq

/-- Global configuration of n threads racing get_or_init on one shared lock:
the backend state, the value slot, a counter of initializer executions, and
the position of every thread. -/
structure Config (n : Nat) (α : Type) where
  state : State
  slot : Option α
  count : Nat
  pcs : Fin n → PC α

/-- Interleaving semantics: one atomic step of one thread. Every thread runs
get_or_init with an initializer returning v (examples/spin.rs try_acquire and
call, composed with src/src/once_lock.rs get_or_try_init). The postconfiguration
is described relationally: the changed fields, the new program counter of the
stepping thread, and a frame condition for all other threads. -/
inductive Step (v : α) : Config n α → Config n α → Prop
  | startHit {c c1 : Config n α} (i : Fin n)
      (hpc : c.pcs i = PC.start) (hst : c.state = State.complete)
      (e1 : c1.state = c.state) (e2 : c1.slot = c.slot) (e3 : c1.count = c.count)
      (e4 : c1.pcs i = PC.readSlot) (e5 : ∀ j, j ≠ i → c1.pcs j = c.pcs j) :
      Step v c c1
  | startMiss {c c1 : Config n α} (i : Fin n)
      (hpc : c.pcs i = PC.start) (hst : c.state ≠ State.complete)
      (e1 : c1.state = c.state) (e2 : c1.slot = c.slot) (e3 : c1.count = c.count)
      (e4 : c1.pcs i = PC.acquireLoop) (e5 : ∀ j, j ≠ i → c1.pcs j = c.pcs j) :
      Step v c c1
  | loopHit {c c1 : Config n α} (i : Fin n)
      (hpc : c.pcs i = PC.acquireLoop) (hst : c.state = State.complete)
      (e1 : c1.state = c.state) (e2 : c1.slot = c.slot) (e3 : c1.count = c.count)
      (e4 : c1.pcs i = PC.readSlot) (e5 : ∀ j, j ≠ i → c1.pcs j = c.pcs j) :
      Step v c c1
  | loopSpin {c c1 : Config n α} (i : Fin n)
      (hpc : c.pcs i = PC.acquireLoop) (hst : c.state = State.running)
      (e1 : c1.state = c.state) (e2 : c1.slot = c.slot) (e3 : c1.count = c.count)
      (e4 : c1.pcs i = PC.acquireLoop) (e5 : ∀ j, j ≠ i → c1.pcs j = c.pcs j) :
      Step v c c1
  | loopClaim {c c1 : Config n α} (i : Fin n)
      (hpc : c.pcs i = PC.acquireLoop)
      (hst : c.state = State.incomplete ∨ c.state = State.poisoned)
      (e1 : c1.state = c.state) (e2 : c1.slot = c.slot) (e3 : c1.count = c.count)
      (e4 : c1.pcs i = PC.casReady c.state) (e5 : ∀ j, j ≠ i → c1.pcs j = c.pcs j) :
      Step v c c1
  | casHit {c c1 : Config n α} (i : Fin n) (obs : State)
      (hpc : c.pcs i = PC.casReady obs) (hst : c.state = obs)
      (e1 : c1.state = State.running) (e2 : c1.slot = c.slot) (e3 : c1.count = c.count)
      (e4 : c1.pcs i = PC.runF) (e5 : ∀ j, j ≠ i → c1.pcs j = c.pcs j) :
      Step v c c1
  | casMiss {c c1 : Config n α} (i : Fin n) (obs : State)
      (hpc : c.pcs i = PC.casReady obs) (hst : c.state ≠ obs)
      (e1 : c1.state = c.state) (e2 : c1.slot = c.slot) (e3 : c1.count = c.count)
      (e4 : c1.pcs i = PC.acquireLoop) (e5 : ∀ j, j ≠ i → c1.pcs j = c.pcs j) :
      Step v c c1
  | runStep {c c1 : Config n α} (i : Fin n)
      (hpc : c.pcs i = PC.runF)
      (e1 : c1.state = c.state) (e2 : c1.slot = some v) (e3 : c1.count = c.count + 1)
      (e4 : c1.pcs i = PC.finishStore) (e5 : ∀ j, j ≠ i → c1.pcs j = c.pcs j) :
      Step v c c1
  | finishStep {c c1 : Config n α} (i : Fin n)
      (hpc : c.pcs i = PC.finishStore)
      (e1 : c1.state = State.complete) (e2 : c1.slot = c.slot) (e3 : c1.count = c.count)
      (e4 : c1.pcs i = PC.readSlot) (e5 : ∀ j, j ≠ i → c1.pcs j = c.pcs j) :
      Step v c c1
  | readStep {c c1 : Config n α} (i : Fin n) (w : α)
      (hpc : c.pcs i = PC.readSlot) (hsl : c.slot = some w)
      (e1 : c1.state = c.state) (e2 : c1.slot = c.slot) (e3 : c1.count = c.count)
      (e4 : c1.pcs i = PC.done w) (e5 : ∀ j, j ≠ i → c1.pcs j = c.pcs j) :
      Step v c c1

/-- Fresh lock, no initializer executed yet, every thread at the entry of
get_or_init. -/
def initConfig (n : Nat) (α : Type) : Config n α :=
  ⟨State.incomplete, none, 0, fun _ => PC.start⟩

/-- Configurations reachable by interleaving n racing callers on a fresh lock. -/
def Reachable (n : Nat) (α : Type) (v : α) (c : Config n α) : Prop :=
  Relation.ReflTransGen (Step v) (initConfig n α) c

/-- A thread owns the exclusive episode when it is about to run the initializer
or about to store Complete. -/
def IsOwner (c : Config n α) (i : Fin n) : Prop :=
  c.pcs i = PC.runF ∨ c.pcs i = PC.finishStore

/-- Concrete two-thread configuration builder used by the run below. -/
def wCfg (s : State) (sl : Option Nat) (k : Nat) (p0 p1 : PC Nat) : Config 2 Nat :=
  ⟨s, sl, k, fun i => if i.val = 0 then p0 else p1⟩

/-- Inductive invariant of the race on a fresh lock whose initializer always
succeeds with value v. -/
structure Inv (v : α) (c : Config n α) : Prop where
  no_poison : c.state ≠ State.poisoned
  cas_obs : ∀ i obs, c.pcs i = PC.casReady obs → obs = State.incomplete
  read_complete : ∀ i, c.pcs i = PC.readSlot → c.state = State.complete
  done_complete : ∀ i w, c.pcs i = PC.done w → c.state = State.complete
  done_val : ∀ i w, c.pcs i = PC.done w → w = v
  incomplete_clean : c.state = State.incomplete →
    c.slot = none ∧ c.count = 0 ∧ ∀ i, ¬ IsOwner c i
  running_owner : c.state = State.running →
    ∃ i, IsOwner c i ∧ (∀ j, IsOwner c j → j = i) ∧
      (c.pcs i = PC.runF → c.count = 0 ∧ c.slot = none) ∧
      (c.pcs i = PC.finishStore → c.count = 1 ∧ c.slot = some v)
  complete_final : c.state = State.complete →
    c.count = 1 ∧ c.slot = some v ∧ ∀ i, ¬ IsOwner c i

theorem isOwner_congr {c c1 : Config n α} {j : Fin n} (hp : c1.pcs j = c.pcs j) :
    IsOwner c1 j ↔ IsOwner c j := by
  unfold IsOwner
  rw [hp]

/-- Preservation helper for steps that only move the program counter of one
thread between non-owner positions, leaving state, slot and count unchanged. -/
theorem Inv.pc_update {n : Nat} {α : Type} {v : α} {c c1 : Config n α} {i : Fin n}
    (h : Inv v c)
    (e1 : c1.state = c.state) (e2 : c1.slot = c.slot) (e3 : c1.count = c.count)
    (e5 : ∀ j, j ≠ i → c1.pcs j = c.pcs j)
    (hOld : ¬ IsOwner c i) (hNew : ¬ IsOwner c1 i)
    (hcas : ∀ obs, c1.pcs i = PC.casReady obs → obs = State.incomplete)
    (hread : c1.pcs i = PC.readSlot → c.state = State.complete)
    (hdone : ∀ w, c1.pcs i = PC.done w → c.state = State.complete ∧ w = v) :
    Inv v c1 := by
  constructor
  · rw [e1]
    exact h.no_poison
  · intro j obs hj
    by_cases hji : j = i
    · subst hji
      exact hcas obs hj
    · rw [e5 j hji] at hj
      exact h.cas_obs j obs hj
  · intro j hj
    rw [e1]
    by_cases hji : j = i
    · subst hji
      exact hread hj
    · rw [e5 j hji] at hj
      exact h.read_complete j hj
  · intro j w hj
    rw [e1]
    by_cases hji : j = i
    · subst hji
      exact (hdone w hj).1
    · rw [e5 j hji] at hj
      exact h.done_complete j w hj
  · intro j w hj
    by_cases hji : j = i
    · subst hji
      exact (hdone w hj).2
    · rw [e5 j hji] at hj
      exact h.done_val j w hj
  · intro hst
    rw [e1] at hst
    obtain ⟨hs1, hs2, hs3⟩ := h.incomplete_clean hst
    refine ⟨e2.trans hs1, e3.trans hs2, ?_⟩
    intro j hj
    by_cases hji : j = i
    · subst hji
      exact hNew hj
    · exact hs3 j ((isOwner_congr (e5 j hji)).mp hj)
  · intro hst
    rw [e1] at hst
    obtain ⟨k, hk, huniq, hkr, hkf⟩ := h.running_owner hst
    have hki : k ≠ i := fun he => hOld (he ▸ hk)
    refine ⟨k, (isOwner_congr (e5 k hki)).mpr hk, ?_, ?_, ?_⟩
    · intro j hj
      by_cases hji : j = i
      · subst hji
        exact absurd hj hNew
      · exact huniq j ((isOwner_congr (e5 j hji)).mp hj)
    · intro hr
      rw [e5 k hki] at hr
      exact ⟨e3.trans (hkr hr).1, e2.trans (hkr hr).2⟩
    · intro hf
      rw [e5 k hki] at hf
      exact ⟨e3.trans (hkf hf).1, e2.trans (hkf hf).2⟩
  · intro hst
    rw [e1] at hst
    obtain ⟨h1, h2, h3⟩ := h.complete_final hst
    refine ⟨e3.trans h1, e2.trans h2, ?_⟩
    intro j hj
    by_cases hji : j = i
    · subst hji
      exact hNew hj
    · exact h3 j ((isOwner_congr (e5 j hji)).mp hj)

/-- The invariant is preserved by every interleaving step. -/
theorem Inv.step {n : Nat} {α : Type} {v : α} {c c1 : Config n α}
    (h : Inv v c) (hs : Step v c c1) : Inv v c1 := by
  cases hs with
  | startHit i hpc hst e1 e2 e3 e4 e5 =>
    refine h.pc_update e1 e2 e3 e5 ?_ ?_ ?_ ?_ ?_
    · simp [IsOwner, hpc]
    · simp [IsOwner, e4]
    · intro obs hob
      rw [e4] at hob
      simp at hob
    · intro _
      exact hst
    · intro w hw
      rw [e4] at hw
      simp at hw
  | startMiss i hpc hst e1 e2 e3 e4 e5 =>
    refine h.pc_update e1 e2 e3 e5 ?_ ?_ ?_ ?_ ?_
    · simp [IsOwner, hpc]
    · simp [IsOwner, e4]
    · intro obs hob
      rw [e4] at hob
      simp at hob
    · intro hrd
      rw [e4] at hrd
      simp at hrd
    · intro w hw
      rw [e4] at hw
      simp at hw
  | loopHit i hpc hst e1 e2 e3 e4 e5 =>
    refine h.pc_update e1 e2 e3 e5 ?_ ?_ ?_ ?_ ?_
    · simp [IsOwner, hpc]
    · simp [IsOwner, e4]
    · intro obs hob
      rw [e4] at hob
      simp at hob
    · intro _
      exact hst
    · intro w hw
      rw [e4] at hw
      simp at hw
  | loopSpin i hpc hst e1 e2 e3 e4 e5 =>
    refine h.pc_update e1 e2 e3 e5 ?_ ?_ ?_ ?_ ?_
    · simp [IsOwner, hpc]
    · simp [IsOwner, e4]
    · intro obs hob
      rw [e4] at hob
      simp at hob
    · intro hrd
      rw [e4] at hrd
      simp at hrd
    · intro w hw
      rw [e4] at hw
      simp at hw
  | loopClaim i hpc hst e1 e2 e3 e4 e5 =>
    refine h.pc_update e1 e2 e3 e5 ?_ ?_ ?_ ?_ ?_
    · simp [IsOwner, hpc]
    · simp [IsOwner, e4]
    · intro obs hob
      rw [e4] at hob
      injection hob with hh
      rcases hst with h1 | h1
      · rw [← hh]
        exact h1
      · exact absurd h1 h.no_poison
    · intro hrd
      rw [e4] at hrd
      simp at hrd
    · intro w hw
      rw [e4] at hw
      simp at hw
  | casMiss i obs hpc hst e1 e2 e3 e4 e5 =>
    refine h.pc_update e1 e2 e3 e5 ?_ ?_ ?_ ?_ ?_
    · simp [IsOwner, hpc]
    · simp [IsOwner, e4]
    · intro ob hob
      rw [e4] at hob
      simp at hob
    · intro hrd
      rw [e4] at hrd
      simp at hrd
    · intro w hw
      rw [e4] at hw
      simp at hw
  | readStep i w hpc hsl e1 e2 e3 e4 e5 =>
    have hcomp : c.state = State.complete := h.read_complete i hpc
    have hval : w = v := by
      have hfin := h.complete_final hcomp
      rw [hfin.2.1] at hsl
      injection hsl with hh
      exact hh.symm
    refine h.pc_update e1 e2 e3 e5 ?_ ?_ ?_ ?_ ?_
    · simp [IsOwner, hpc]
    · simp [IsOwner, e4]
    · intro ob hob
      rw [e4] at hob
      simp at hob
    · intro hrd
      rw [e4] at hrd
      simp at hrd
    · intro w1 hw
      rw [e4] at hw
      injection hw with hh
      exact ⟨hcomp, hh ▸ hval⟩
  | casHit i obs hpc hst e1 e2 e3 e4 e5 =>
    have hobs : obs = State.incomplete := h.cas_obs i obs hpc
    have hstI : c.state = State.incomplete := hst.trans hobs
    obtain ⟨hslot, hcount, hown⟩ := h.incomplete_clean hstI
    have hnoread : ∀ j, c.pcs j ≠ PC.readSlot := by
      intro j hj
      have hx := h.read_complete j hj
      rw [hstI] at hx
      simp at hx
    have hnodone : ∀ j w, c.pcs j ≠ PC.done w := by
      intro j w hj
      have hx := h.done_complete j w hj
      rw [hstI] at hx
      simp at hx
    constructor
    · rw [e1]
      simp
    · intro j ob hj
      by_cases hji : j = i
      · subst hji
        rw [e4] at hj
        simp at hj
      · rw [e5 j hji] at hj
        exact h.cas_obs j ob hj
    · intro j hj
      by_cases hji : j = i
      · subst hji
        rw [e4] at hj
        simp at hj
      · rw [e5 j hji] at hj
        exact absurd hj (hnoread j)
    · intro j w hj
      by_cases hji : j = i
      · subst hji
        rw [e4] at hj
        simp at hj
      · rw [e5 j hji] at hj
        exact absurd hj (hnodone j w)
    · intro j w hj
      by_cases hji : j = i
      · subst hji
        rw [e4] at hj
        simp at hj
      · rw [e5 j hji] at hj
        exact absurd hj (hnodone j w)
    · intro hx
      rw [e1] at hx
      simp at hx
    · intro _
      refine ⟨i, Or.inl e4, ?_, ?_, ?_⟩
      · intro j hj
        by_cases hji : j = i
        · exact hji
        · exact absurd ((isOwner_congr (e5 j hji)).mp hj) (hown j)
      · intro _
        exact ⟨e3.trans hcount, e2.trans hslot⟩
      · intro hf
        rw [e4] at hf
        simp at hf
    · intro hx
      rw [e1] at hx
      simp at hx
  | runStep i hpc e1 e2 e3 e4 e5 =>
    have hrun : c.state = State.running := by
      cases hc : c.state with
      | incomplete => exact absurd (Or.inl hpc) ((h.incomplete_clean hc).2.2 i)
      | running => rfl
      | complete => exact absurd (Or.inl hpc) ((h.complete_final hc).2.2 i)
      | poisoned => exact absurd hc h.no_poison
    obtain ⟨k, hk, huniq, hkr, hkf⟩ := h.running_owner hrun
    have hik : i = k := huniq i (Or.inl hpc)
    subst hik
    obtain ⟨hc0, hs0⟩ := hkr hpc
    have hnoread : ∀ j, c.pcs j ≠ PC.readSlot := by
      intro j hj
      have hx := h.read_complete j hj
      rw [hrun] at hx
      simp at hx
    have hnodone : ∀ j w, c.pcs j ≠ PC.done w := by
      intro j w hj
      have hx := h.done_complete j w hj
      rw [hrun] at hx
      simp at hx
    constructor
    · rw [e1, hrun]
      simp
    · intro j ob hj
      by_cases hji : j = i
      · subst hji
        rw [e4] at hj
        simp at hj
      · rw [e5 j hji] at hj
        exact h.cas_obs j ob hj
    · intro j hj
      by_cases hji : j = i
      · subst hji
        rw [e4] at hj
        simp at hj
      · rw [e5 j hji] at hj
        exact absurd hj (hnoread j)
    · intro j w hj
      by_cases hji : j = i
      · subst hji
        rw [e4] at hj
        simp at hj
      · rw [e5 j hji] at hj
        exact absurd hj (hnodone j w)
    · intro j w hj
      by_cases hji : j = i
      · subst hji
        rw [e4] at hj
        simp at hj
      · rw [e5 j hji] at hj
        exact absurd hj (hnodone j w)
    · intro hx
      rw [e1, hrun] at hx
      simp at hx
    · intro _
      refine ⟨i, Or.inr e4, ?_, ?_, ?_⟩
      · intro j hj
        by_cases hji : j = i
        · exact hji
        · have hj2 := (isOwner_congr (e5 j hji)).mp hj
          exact huniq j hj2
      · intro hx
        rw [e4] at hx
        simp at hx
      · intro _
        refine ⟨?_, e2⟩
        rw [e3, hc0]
    · intro hx
      rw [e1, hrun] at hx
      simp at hx
  | finishStep i hpc e1 e2 e3 e4 e5 =>
    have hrun : c.state = State.running := by
      cases hc : c.state with
      | incomplete => exact absurd (Or.inr hpc) ((h.incomplete_clean hc).2.2 i)
      | running => rfl
      | complete => exact absurd (Or.inr hpc) ((h.complete_final hc).2.2 i)
      | poisoned => exact absurd hc h.no_poison
    obtain ⟨k, hk, huniq, hkr, hkf⟩ := h.running_owner hrun
    have hik : i = k := huniq i (Or.inr hpc)
    subst hik
    obtain ⟨hcnt, hslt⟩ := hkf hpc
    have hnodone : ∀ j w, c.pcs j ≠ PC.done w := by
      intro j w hj
      have hx := h.done_complete j w hj
      rw [hrun] at hx
      simp at hx
    constructor
    · rw [e1]
      simp
    · intro j ob hj
      by_cases hji : j = i
      · subst hji
        rw [e4] at hj
        simp at hj
      · rw [e5 j hji] at hj
        exact h.cas_obs j ob hj
    · intro j hj
      exact e1
    · intro j w hj
      exact e1
    · intro j w hj
      by_cases hji : j = i
      · subst hji
        rw [e4] at hj
        simp at hj
      · rw [e5 j hji] at hj
        exact absurd hj (hnodone j w)
    · intro hx
      rw [e1] at hx
      simp at hx
    · intro hx
      rw [e1] at hx
      simp at hx
    · intro _
      refine ⟨e3.trans hcnt, e2.trans hslt, ?_⟩
      intro j hj
      by_cases hji : j = i
      · subst hji
        rcases hj with h1 | h1
        · rw [e4] at h1
          simp at h1
        · rw [e4] at h1
          simp at h1
      · have hj2 := (isOwner_congr (e5 j hji)).mp hj
        have := huniq j hj2
        exact hji this

/-- The invariant holds in the initial configuration. -/
theorem inv_init (n : Nat) (α : Type) (v : α) : Inv v (initConfig n α) := by
  constructor
  · simp [initConfig]
  · intro i obs hj
    simp [initConfig] at hj
  · intro i hj
    simp [initConfig] at hj
  · intro i w hj
    simp [initConfig] at hj
  · intro i w hj
    simp [initConfig] at hj
  · intro _
    refine ⟨rfl, rfl, ?_⟩
    intro i hj
    rcases hj with h1 | h1 <;> simp [initConfig] at h1
  · intro hx
    simp [initConfig] at hx
  · intro hx
    simp [initConfig] at hx

/-- Every reachable configuration satisfies the invariant. -/
theorem reachable_inv {n : Nat} {α : Type} {v : α} {c : Config n α}
    (h : Reachable n α v c) : Inv v c := by
  induction h with
  | refl => exact inv_init n α v
  | tail hab hbc ih => exact ih.step hbc

/-- C1: for every number n of callers racing get_or_init on a fresh OnceLock
over the spin backend, in every reachable interleaving the initializer body has
executed at most once, every caller that has returned obtained exactly the
value the one executed initializer produced, and once every caller has
returned the initializer has executed exactly once, regardless of n. -/
theorem C1_get_or_init_exactly_once_and_agreement (n : Nat) (α : Type) (v : α)
    (c : Config n α) (h : Reachable n α v c) :
    c.count ≤ 1 ∧
    (∀ i w, c.pcs i = PC.done w → w = v) ∧
    ((∀ i : Fin n, ∃ w, c.pcs i = PC.done w) → 0 < n → c.count = 1) := by
  have hinv := reachable_inv h
  refine ⟨?_, hinv.done_val, ?_⟩
  · cases hst : c.state with
    | incomplete =>
      rw [(hinv.incomplete_clean hst).2.1]
      omega
    | poisoned => exact absurd hst hinv.no_poison
    | complete =>
      rw [(hinv.complete_final hst).1]
    | running =>
      obtain ⟨k, hk, _, hkr, hkf⟩ := hinv.running_owner hst
      rcases hk with h1 | h1
      · rw [(hkr h1).1]
        omega
      · rw [(hkf h1).1]
  · intro hall hn
    obtain ⟨w, hw⟩ := hall ⟨0, hn⟩
    exact (hinv.complete_final (hinv.done_complete _ _ hw)).1

/-- Witness for C1: a concrete two-thread interleaving in which thread 0 wins
the race and installs 42 while thread 1 arrives after completion; in the final
configuration both threads returned 42 and the initializer ran exactly once. -/
theorem C1_witness :
    (wCfg State.complete (some 42) 1 (PC.done 42) (PC.done 42)).count = 1 ∧
    ∀ i w,
      (wCfg State.complete (some 42) 1 (PC.done 42) (PC.done 42)).pcs i = PC.done w →
        w = 42 := by
  have s1 : Step 42 (initConfig 2 Nat)
      (wCfg State.incomplete none 0 PC.acquireLoop PC.start) :=
    Step.startMiss 0 (by decide) (by decide) (by decide) (by decide) (by decide)
      (by decide) (by decide)
  have s2 : Step 42 (wCfg State.incomplete none 0 PC.acquireLoop PC.start)
      (wCfg State.incomplete none 0 (PC.casReady State.incomplete) PC.start) :=
    Step.loopClaim 0 (by decide) (by decide) (by decide) (by decide) (by decide)
      (by decide) (by decide)
  have s3 : Step 42 (wCfg State.incomplete none 0 (PC.casReady State.incomplete) PC.start)
      (wCfg State.running none 0 PC.runF PC.start) :=
    Step.casHit 0 State.incomplete (by decide) (by decide) (by decide) (by decide)
      (by decide) (by decide) (by decide)
  have s4 : Step 42 (wCfg State.running none 0 PC.runF PC.start)
      (wCfg State.running (some 42) 1 PC.finishStore PC.start) :=
    Step.runStep 0 (by decide) (by decide) (by decide) (by decide) (by decide)
      (by decide)
  have s5 : Step 42 (wCfg State.running (some 42) 1 PC.finishStore PC.start)
      (wCfg State.complete (some 42) 1 PC.readSlot PC.start) :=
    Step.finishStep 0 (by decide) (by decide) (by decide) (by decide) (by decide)
      (by decide)
  have s6 : Step 42 (wCfg State.complete (some 42) 1 PC.readSlot PC.start)
      (wCfg State.complete (some 42) 1 (PC.done 42) PC.start) :=
    Step.readStep 0 42 (by decide) (by decide) (by decide) (by decide) (by decide)
      (by decide) (by decide)
  have s7 : Step 42 (wCfg State.complete (some 42) 1 (PC.done 42) PC.start)
      (wCfg State.complete (some 42) 1 (PC.done 42) PC.readSlot) :=
    Step.startHit 1 (by decide) (by decide) (by decide) (by decide) (by decide)
      (by decide) (by decide)
  have s8 : Step 42 (wCfg State.complete (some 42) 1 (PC.done 42) PC.readSlot)
      (wCfg State.complete (some 42) 1 (PC.done 42) (PC.done 42)) :=
    Step.readStep 1 42 (by decide) (by decide) (by decide) (by decide) (by decide)
      (by decide) (by decide)
  have hr : Reachable 2 Nat 42
      (wCfg State.complete (some 42) 1 (PC.done 42) (PC.done 42)) :=
    Relation.ReflTransGen.tail
      (Relation.ReflTransGen.tail
        (Relation.ReflTransGen.tail
          (Relation.ReflTransGen.tail
            (Relation.ReflTransGen.tail
              (Relation.ReflTransGen.tail
                (Relation.ReflTransGen.tail
                  (Relation.ReflTransGen.tail Relation.ReflTransGen.refl s1)
                  s2)
                s3)
              s4)
            s5)
          s6)
        s7)
      s8
  have hall : ∀ i : Fin 2,
      ∃ w, (wCfg State.complete (some 42) 1 (PC.done 42) (PC.done 42)).pcs i =
        PC.done w := by
    intro i
    fin_cases i
    · exact ⟨42, by decide⟩
    · exact ⟨42, by decide⟩
  have h := C1_get_or_init_exactly_once_and_agreement 2 Nat 42
    (wCfg State.complete (some 42) 1 (PC.done 42) (PC.done 42)) hr
  exact ⟨h.2.2 hall (by decide), h.2.1⟩

/-- C2, evaluation of the code at the failing input: RawSpinOnce::call of
src/src/raw_spin.rs, started from the fresh Empty state, hands the executed
closure an OnceState whose is_poisoned flag is true although the lifecycle
state it claimed was not Poisoned, because lines 69 and 70 poison the
OnceState unconditionally. The example backends derive the flag from the
claimed state: try_acquire from Incomplete hands a flag that is false. -/
theorem C2_rawspin_fresh_attempt_sees_poisoned :
    rawSpinCrateCall SpinState.empty (fun _ => true) =
      some (SpinState.init, [OnceState.new.poison]) ∧
    (OnceState.new.poison).is_poisoned = true ∧
    tryAcquire State.incomplete = some (some OnceState.new, State.running) ∧
    OnceState.new.is_poisoned = false :=
  ⟨rfl, rfl, rfl, rfl⟩

/-- C3, evaluation of the code at the failing input: the associated constants
of RawStdOnce in examples/std.rs are swapped, so over that backend
OnceLock::new reports completed while its slot is empty, and
OnceLock::with_value reports not completed so get returns None. The spin
backend lock orders its constants correctly, shown for contrast. -/
theorem C3_std_constants_swapped :
    (StdOnceLockM.new Nat).once.is_completed = true ∧
    (StdOnceLockM.new Nat).value = none ∧
    (StdOnceLockM.with_value (7 : Nat)).once.is_completed = false ∧
    (StdOnceLockM.with_value (7 : Nat)).get = none ∧
    (OnceLockM.with_value (7 : Nat)).get = some 7 ∧
    (OnceLockM.new Nat).get = none :=
  ⟨rfl, rfl, rfl, rfl, rfl, rfl⟩

/-- C4: over the spin backend, an executed initializer that returns an error
leaves the instance Poisoned and that same error is returned to the caller
that ran the closure; a later call on the poisoned instance whose closure
succeeds transitions the instance to Complete. -/
theorem C4_poison_then_recover (ε : Type) (f g : OnceState → Except ε Unit) (e : ε)
    (hf : f OnceState.new = Except.error e)
    (hg : g OnceState.poisoned = Except.ok ()) :
    spinCall ε State.incomplete f = some (State.poisoned, Except.error e) ∧
    spinCall ε State.poisoned g = some (State.complete, Except.ok ()) := by
  constructor
  · simp [spinCall, tryAcquire, hf]
  · simp [spinCall, tryAcquire, hg]

/-- Witness for C4 at a concrete failing and then succeeding initializer. -/
theorem C4_witness :
    spinCall Unit State.incomplete (fun _ => Except.error ()) =
      some (State.poisoned, Except.error ()) ∧
    spinCall Unit State.poisoned (fun _ => Except.ok ()) =
      some (State.complete, Except.ok ()) :=
  C4_poison_then_recover Unit (fun _ => Except.error ()) (fun _ => Except.ok ()) ()
    rfl rfl

/-- C5: a Complete spin backend instance answers call with Ok at once, for
every closure, without invoking it and staying Complete; a completed OnceLock
reports completion and answers get and get_or_try_init from the fast path with
the stored value for every initializer, without blocking. -/
theorem C5_complete_fast_path (ε α : Type) (f : OnceState → Except ε Unit)
    (l : OnceLockM α) (g : Unit → Except ε α) (w : α)
    (h1 : l.once = State.complete) (h2 : l.value = some w) :
    spinCall ε State.complete f = some (State.complete, Except.ok ()) ∧
    State.complete.is_completed = true ∧
    l.get = some w ∧
    OnceLockM.get_or_try_init ε l g = some (l, Except.ok w) := by
  refine ⟨rfl, rfl, ?_, ?_⟩
  · simp [OnceLockM.get, State.is_completed, h1, h2]
  · simp [OnceLockM.get_or_try_init, OnceLockM.get, State.is_completed, h1, h2]

/-- Witness for C5 at a concrete completed lock holding 5. -/
theorem C5_witness :
    spinCall Unit State.complete (fun _ => Except.error ()) =
      some (State.complete, Except.ok ()) ∧
    OnceLockM.get_or_try_init Unit (OnceLockM.with_value 5)
        (fun _ => Except.error ()) =
      some (OnceLockM.with_value 5, Except.ok 5) := by
  have h := C5_complete_fast_path Unit Nat (fun _ => Except.error ())
    (OnceLockM.with_value 5) (fun _ => Except.error ()) 5 rfl rfl
  exact ⟨h.1, h.2.2.2⟩

/-- C6: over a backend in the Poisoned state, call_once and try_call_once
panic with the message Once poisoned and their user closure never runs (the
invocation list stays empty), while call_once_force runs the user closure,
handing it an OnceState whose is_poisoned flag is true. -/
theorem C6_poisoned_policy (ε : Type) (f : OnceState → Except ε Unit) :
    callOnce State.poisoned =
      some (State.poisoned, PanicOr.panicked "Once poisoned", []) ∧
    tryCallOnce ε State.poisoned f =
      some (State.poisoned, PanicOr.panicked "Once poisoned", []) ∧
    callOnceForce State.poisoned =
      some (State.complete, PanicOr.ok (), [OnceState.poisoned]) ∧
    OnceState.poisoned.is_poisoned = true :=
  ⟨rfl, rfl, rfl, rfl⟩

/-- C7: set on a completed OnceLock hands the exact argument back as Err and
leaves the lock untouched; set on an incomplete or poisoned lock installs the
value, after which get returns it, and reports Ok. -/
theorem C7_set_spec (α : Type) (l : OnceLockM α) (v w : α) :
    (l.once = State.complete → l.value = some w →
      l.set v = some (l, Except.error v)) ∧
    ((l.once = State.incomplete ∨ l.once = State.poisoned) →
      l.set v = some (⟨State.complete, some v⟩, Except.ok ()) ∧
      (OnceLockM.mk State.complete (some v)).get = some v) := by
  constructor
  · intro h1 h2
    simp [OnceLockM.set, OnceLockM.get, State.is_completed, h1, h2]
  · intro h1
    rcases h1 with h1 | h1 <;>
      simp [OnceLockM.set, OnceLockM.get, State.is_completed, h1, tryAcquire]

/-- Witness for C7 at a fresh lock and at a completed lock holding 3. -/
theorem C7_witness :
    (OnceLockM.new Nat).set 7 =
      some (⟨State.complete, some 7⟩, Except.ok ()) ∧
    (OnceLockM.with_value (3 : Nat)).set 7 =
      some (OnceLockM.with_value 3, Except.error 7) := by
  refine ⟨((C7_set_spec Nat (OnceLockM.new Nat) 7 0).2 (Or.inl rfl)).1, ?_⟩
  exact (C7_set_spec Nat (OnceLockM.with_value 3) 7 3).1 rfl rfl

/-- C8: the critical-section backend call that observes Running from inside
the critical section panics with the reentrant message, for every closure; the
call function is total, so it does not block, and its result is not the
recoverable Ok-with-Err shape. -/
theorem C8_reentrant_panics (ε : Type) (f : OnceState → Except ε Unit) :
    csCall ε State.running f = PanicOr.panicked "reentrant once call" ∧
    ∀ r : State × Except ε Unit, csCall ε State.running f ≠ PanicOr.ok r := by
  refine ⟨rfl, ?_⟩
  intro r h
  simp [csCall] at h

theorem testBit_zero_of_mod4 (a : Nat) (hal : a % 4 = 0) : a.testBit 0 = false := by
  rw [Nat.testBit_to_div_mod]
  simp only [pow_zero, Nat.div_one, decide_eq_false_iff_not]
  omega

theorem testBit_one_of_mod4 (a : Nat) (hal : a % 4 = 0) : a.testBit 1 = false := by
  rw [Nat.testBit_to_div_mod]
  simp only [pow_one, decide_eq_false_iff_not]
  omega

theorem testBit_false_of_lt_pow (x i k : Nat) (hx : x < 2 ^ k) (hk : k ≤ i) :
    x.testBit i = false :=
  Nat.testBit_lt_two_pow
    (lt_of_lt_of_le hx (Nat.pow_le_pow_right (by omega) hk))

/-- C9: tag and address round-trip of the pointer-tag encoding of
examples/std.rs: for every waiter node address inside the usize range whose
two low bits are zero (guaranteed by the 4 byte alignment of Waiter) and every
2 bit tag, stripping the tag bits of the combined word restores the address,
and masking the combined word with STATE_MASK restores the tag. -/
theorem C9_tag_addr_round_trip (a t : Nat)
    (ha : a < 2 ^ USIZE_BITS) (hal : a % 4 = 0) (ht : t < STATE_MASK + 1) :
    stripTag (combineTag a t) = a ∧ tagOf (combineTag a t) = t := by
  have ha64 : a < 2 ^ 64 := ha
  have ht4 : t < 4 := ht
  have h3 : (3 : Nat) = 2 ^ 2 - 1 := by norm_num
  constructor
  · apply Nat.eq_of_testBit_eq
    intro i
    simp only [stripTag, combineTag, NOT_STATE_MASK, STATE_MASK, USIZE_BITS,
      Nat.testBit_land, Nat.testBit_lor, Nat.testBit_xor,
      Nat.testBit_two_pow_sub_one]
    rw [h3, Nat.testBit_two_pow_sub_one]
    rcases Nat.lt_or_ge i 2 with hi | hi
    · have hi64 : i < 64 := by omega
      have ha0 : a.testBit i = false := by
        interval_cases i
        · exact testBit_zero_of_mod4 a hal
        · exact testBit_one_of_mod4 a hal
      simp [ha0, hi, hi64]
    · have ht0 : t.testBit i = false := testBit_false_of_lt_pow t i 2 ht4 hi
      rcases Nat.lt_or_ge i 64 with hi64 | hi64
      · simp [ht0, hi64, Nat.not_lt.mpr hi]
      · have ha0 : a.testBit i = false := testBit_false_of_lt_pow a i 64 ha64 hi64
        simp [ha0, ht0, Nat.not_lt.mpr hi64, Nat.not_lt.mpr hi]
  · apply Nat.eq_of_testBit_eq
    intro i
    simp only [tagOf, combineTag, STATE_MASK, Nat.testBit_land, Nat.testBit_lor]
    rw [h3, Nat.testBit_two_pow_sub_one]
    rcases Nat.lt_or_ge i 2 with hi | hi
    · have ha0 : a.testBit i = false := by
        interval_cases i
        · exact testBit_zero_of_mod4 a hal
        · exact testBit_one_of_mod4 a hal
      simp [ha0, hi]
    · have ht0 : t.testBit i = false := testBit_false_of_lt_pow t i 2 ht4 hi
      simp [ht0, Nat.not_lt.mpr hi]

/-- Witness for C9 at the aligned address 8 with tag 3. -/
theorem C9_witness :
    stripTag (combineTag 8 3) = 8 ∧ tagOf (combineTag 8 3) = 3 :=
  C9_tag_addr_round_trip 8 3 (by decide) (by decide) (by decide)

/-- C10: when the backend honours the RawOnce contract and invokes the
callback of call_once_force at most once per wrapper call, every take of the
Option slot holding the user closure finds Some, so the None branch of the
unwrap_unchecked is unreachable and the user closure runs at most once. -/
theorem C10_callback_take_safe (φ : Type) (f0 : φ) (k : Nat) (hk : k ≤ 1) :
    (runCallbackTimes k (some f0)).2.2 = true ∧
    (runCallbackTimes k (some f0)).2.1 = k ∧
    (runCallbackTimes k (some f0)).2.1 ≤ 1 := by
  interval_cases k
  · refine ⟨rfl, rfl, ?_⟩
    simp [runCallbackTimes]
  · refine ⟨rfl, rfl, ?_⟩
    simp [runCallbackTimes, optionTake]

/-- Witness for C10 at one callback invocation of a concrete closure slot. -/
theorem C10_witness :
    (runCallbackTimes 1 (some 0)).2.2 = true ∧
    (runCallbackTimes 1 (some 0)).2.1 = 1 ∧
    (runCallbackTimes 1 (some 0)).2.1 ≤ 1 :=
  C10_callback_take_safe Nat 0 1 (by decide)

end SyncApi
